import Mathlib

set_option autoImplicit false

/-!
Verification development for `cura/Machines/VariantManager.py`.

The module maintains a three-level lookup table
  machine_definition_id -> variant_type -> variant_name -> ContainerNode
built once from the container registry and queried read-only afterwards.

Embedding conventions:
* Python `dict` / `OrderedDict` values are association lists (`List (key × value)`)
  with first-occurrence lookup and in-place update; this preserves insertion
  order, which the type-omitted search of `getVariantNode` iterates over.
* Raising Python exceptions is `Except.error`; `KeyError` from a direct `d[k]`
  index is `LookupError.keyError`, `ValueError` from the `VariantType(...)`
  enum coercion and the `RuntimeError` for duplicated variants are `InitError`.
* The registry collaborator is abstracted as the list of variant metadata
  records that `findContainersMetadata(type = "variant")` returns.
* The Python method named `initialize` is embedded as `initializeMap`
  (map construction from the record list) and `VariantManager.initializeWith`
  (the stateful method that replaces the whole map).
-/

/-- The `VariantType` enumeration: `BUILD_PLATE = "buildplate"`, `NOZZLE = "nozzle"`. -/
inductive VariantType where
  | BUILD_PLATE
  | NOZZLE
deriving DecidableEq, Repr

/-- The Python enum coercion `VariantType(s)`: `some` member whose value is `s`,
`none` standing for the `ValueError` raised on any other string. -/
def VariantType.ofString (s : String) : Option VariantType :=
  if s = "buildplate" then some VariantType.BUILD_PLATE
  else if s = "nozzle" then some VariantType.NOZZLE
  else none

/-- `ALL_VARIANT_TYPES = (VariantType.BUILD_PLATE, VariantType.NOZZLE)`. -/
def ALL_VARIANT_TYPES : List VariantType := [VariantType.BUILD_PLATE, VariantType.NOZZLE]

/-- One variant metadata record from the container registry.  The code reads
exactly the fields `id`, `name`, `definition` and `hardware_type`. -/
structure VariantMetadata where
  id : String
  name : String
  definition : String
  hardware_type : String
deriving DecidableEq, Repr

/-- `ContainerNode(metadata = variant_metadata)`: the lazy wrapper stored in the
map.  Only its metadata matters to this module. -/
structure ContainerNode where
  metadata : VariantMetadata
deriving DecidableEq, Repr

/-- First-occurrence association-list lookup: Python `d.get(k)` / `k in d`. -/
def lookup? {α β : Type} [DecidableEq α] : List (α × β) → α → Option β
  | [], _ => none
  | (k, v) :: rest, key => if key = k then some v else lookup? rest key

/-- Python `d[k] = v`: update in place when the key is present (keeping its
position), append otherwise. -/
def setKey {α β : Type} [DecidableEq α] : List (α × β) → α → β → List (α × β)
  | [], key, val => [(key, val)]
  | (k, v) :: rest, key, val =>
    if key = k then (k, val) :: rest else (k, v) :: setKey rest key val

/-- variant_name -> ContainerNode. -/
abbrev VariantDict := List (String × ContainerNode)

/-- variant_type -> variant_name -> ContainerNode. -/
abbrev TypeDict := List (VariantType × VariantDict)

/-- machine_definition_id -> variant_type -> variant_name -> ContainerNode:
the `_machine_to_variant_dict_map` table. -/
abbrev MachineMap := List (String × TypeDict)

/-- Exceptions raised while building the map: the `ValueError` from
`VariantType(variant_type)` on an unknown string, and the `RuntimeError`
"Found duplicated variant name [...], type [...] for machine [...]". -/
inductive InitError where
  | invalidVariantType (hardware_type : String)
  | duplicateVariant (name : String) (t : VariantType) (machine : String)
deriving DecidableEq, Repr

/-- The Python `KeyError` raised by a direct `d[k]` index on a missing key. -/
inductive LookupError where
  | keyError (key : String)
deriving DecidableEq, Repr

/-- `self._exclude_variant_id_list = ["empty_variant"]`. -/
def exclude_variant_id_list : List String := ["empty_variant"]

/-- The per-machine dictionary created for a newly seen machine definition:
`for variant_type in ALL_VARIANT_TYPES: map[definition][variant_type] = dict()`. -/
def emptyTypeDict : TypeDict :=
  ALL_VARIANT_TYPES.foldl (fun td t => setKey td t []) []

/-- `if variant_definition not in self._machine_to_variant_dict_map: ...` —
create the two inner levels (pre-populated with all variant types) for a newly
seen machine definition. -/
def ensureMachine (m : MachineMap) (mid : String) : MachineMap :=
  if (lookup? m mid).isNone then setKey m mid emptyTypeDict else m

/-- The tail of the loop body after the enum coercion: the duplicate check
`if variant_name in variant_dict: raise RuntimeError(...)` followed by
`variant_dict[variant_name] = ContainerNode(metadata = ...)`.  The source
indexes `map[variant_definition][variant_type]` directly; both keys are
present at that point (the machine entry was just ensured and every machine
entry holds both variant types), so the `getD []` defaults are never taken.
The inner dictionaries are aliased in Python, so the assignment is the
nested `setKey` write-back here. -/
def insertVariant (m1 : MachineMap) (r : VariantMetadata) (t : VariantType) :
    Except InitError MachineMap :=
  if (lookup? ((lookup? ((lookup? m1 r.definition).getD []) t).getD []) r.name).isSome then
    Except.error (InitError.duplicateVariant r.name t r.definition)
  else
    Except.ok (setKey m1 r.definition
      (setKey ((lookup? m1 r.definition).getD []) t
        (setKey ((lookup? ((lookup? m1 r.definition).getD []) t).getD []) r.name
          (ContainerNode.mk r))))

/-- One iteration of the loop body inside the initialization method: skip
excluded ids, create the two inner levels for a newly seen machine definition,
coerce the hardware type (raising `ValueError` on an unknown string), reject
duplicated names, insert the node.  In the source the machine entry is created
before `VariantType(...)` may raise, so a partially mutated map exists at the
moment of that raise; the `Except` embedding returns only the error then,
which is faithful for every observable behaviour because a raising
initialization leaves the manager unusable (no query runs on the partial
map). -/
def processVariant (m : MachineMap) (r : VariantMetadata) : Except InitError MachineMap :=
  if r.id ∈ exclude_variant_id_list then Except.ok m
  else
    match VariantType.ofString r.hardware_type with
    | none => Except.error (InitError.invalidVariantType r.hardware_type)
    | some t => insertVariant (ensureMachine m r.definition) r t

/-- The initialization loop, starting from an already-built partial map. -/
def initFrom (m : MachineMap) : List VariantMetadata → Except InitError MachineMap
  | [] => Except.ok m
  | r :: rest =>
    match processVariant m r with
    | Except.error e => Except.error e
    | Except.ok m2 => initFrom m2 rest

/-- The map built by the initialization method from the registry's variant
metadata list (the method starts from a fresh `OrderedDict()`). -/
def initializeMap (records : List VariantMetadata) : Except InitError MachineMap :=
  initFrom [] records

/-- The manager object: its only state is `_machine_to_variant_dict_map`. -/
structure VariantManager where
  machine_to_variant_dict_map : MachineMap
deriving DecidableEq, Repr

/-- The stateful initialization method: it first replaces the whole map with a
fresh empty one and then rebuilds it from the registry contents, so the prior
state of the manager never influences the result. -/
def VariantManager.initializeWith (_vm : VariantManager) (records : List VariantMetadata) :
    Except InitError VariantManager :=
  match initFrom [] records with
  | Except.error e => Except.error e
  | Except.ok m => Except.ok (VariantManager.mk m)

/-- The `for variant_dict in variant_type_dict.values()` search of
`getVariantNode` with the type omitted: return the node of the first
bucket containing the name, `none` when no bucket does. -/
def firstMatch (dicts : List VariantDict) (variant_name : String) : Option ContainerNode :=
  match dicts with
  | [] => none
  | d :: rest =>
    match lookup? d variant_name with
    | some node => some node
    | none => firstMatch rest variant_name

/-- `getVariantNode(machine_definition_id, variant_name, variant_type = None)`.
Both branches of the source index `self._machine_to_variant_dict_map[machine_definition_id]`
directly, so an unknown machine id raises `KeyError` in both. -/
def getVariantNode (m : MachineMap) (machine_definition_id : String) (variant_name : String)
    (variant_type : Option VariantType) : Except LookupError (Option ContainerNode) :=
  match variant_type with
  | none =>
    match lookup? m machine_definition_id with
    | none => Except.error (LookupError.keyError machine_definition_id)
    | some variant_type_dict =>
      Except.ok (firstMatch (variant_type_dict.map Prod.snd) variant_name)
  | some t =>
    match lookup? m machine_definition_id with
    | none => Except.error (LookupError.keyError machine_definition_id)
    | some td => Except.ok (lookup? ((lookup? td t).getD []) variant_name)

/-- A machine-definition container: the code reads `getId()` and
`getMetaDataEntry(key, default)`; metadata entries are string valued and
`none` models an absent entry (the defaults used by the source, `False` and
`None`, are both falsy). -/
structure DefinitionContainer where
  id : String
  metadata : List (String × String)
deriving DecidableEq, Repr

/-- `machine_definition.getId()`. -/
def DefinitionContainer.getId (d : DefinitionContainer) : String := d.id

/-- `machine_definition.getMetaDataEntry(key, default)` with a falsy default. -/
def DefinitionContainer.getMetaDataEntry (d : DefinitionContainer) (key : String) :
    Option String :=
  lookup? d.metadata key

/-- A machine (`GlobalStack`): the code only reads `machine.definition.getId()`. -/
structure GlobalStack where
  definition : DefinitionContainer
deriving DecidableEq, Repr

/-- Python `d.get(key, default)` where the stored keys are `VariantType`
members and the query key is `Optional[VariantType]`: `None` never equals a
stored key, so an omitted type always takes the default. -/
def getWithOptKey (td : TypeDict) (key : Option VariantType) : Option VariantDict :=
  match td with
  | [] => none
  | (t, d) :: rest => if key = some t then some d else getWithOptKey rest key

/-- `getVariantNodes(machine, variant_type = None)`: two `get` calls with `{}`
defaults, hence never raising. -/
def getVariantNodes (m : MachineMap) (machine : GlobalStack)
    (variant_type : Option VariantType) : VariantDict :=
  let machine_definition_id := machine.definition.getId
  (getWithOptKey ((lookup? m machine_definition_id).getD []) variant_type).getD []

/-- Modelled from the spec: the external boolean-coercion helper for
string-valued flags (`UM.Util.parseBool`, owned by the surrounding framework
and out of this repository's scope).  It accepts the usual truthy strings and
coerces an absent entry (the `False` default) to `false`. -/
def parseBool : Option String → Bool
  | some s => ["True", "true", "Yes", "yes", "1"].contains s
  | none => false

/-- `getDefaultVariantNode(machine_definition, variant_type)`: the capability
flag `has_variant_buildplates` gates `preferred_variant_buildplate_name` for
the build-plate type, `has_variants` gates `preferred_variant_name` otherwise;
the preferred name is then used only when truthy (`if preferred_variant_name:`),
so an empty string behaves like an absent one. -/
def getDefaultVariantNode (m : MachineMap) (machine_definition : DefinitionContainer)
    (variant_type : VariantType) : Except LookupError (Option ContainerNode) :=
  let machine_definition_id := machine_definition.getId
  let preferred_variant_name : Option String :=
    match variant_type with
    | VariantType.BUILD_PLATE =>
      if parseBool (machine_definition.getMetaDataEntry "has_variant_buildplates")
      then machine_definition.getMetaDataEntry "preferred_variant_buildplate_name"
      else none
    | VariantType.NOZZLE =>
      if parseBool (machine_definition.getMetaDataEntry "has_variants")
      then machine_definition.getMetaDataEntry "preferred_variant_name"
      else none
  match preferred_variant_name with
  | none => Except.ok none
  | some nm =>
    if nm = "" then Except.ok none
    else getVariantNode m machine_definition_id nm (some variant_type)

/-- The capability flag read for each variant type by `getDefaultVariantNode`. -/
def capabilityFlagKey : VariantType → String
  | VariantType.BUILD_PLATE => "has_variant_buildplates"
  | VariantType.NOZZLE => "has_variants"

/-- The preferred-name entry read for each variant type by `getDefaultVariantNode`. -/
def preferredNameKey : VariantType → String
  | VariantType.BUILD_PLATE => "preferred_variant_buildplate_name"
  | VariantType.NOZZLE => "preferred_variant_name"

/-- Selects the bucket of a canonical per-machine dictionary that belongs to
a variant type. -/
def typeSel (t : VariantType) (d1 d2 : VariantDict) : VariantDict :=
  match t with
  | VariantType.BUILD_PLATE => d1
  | VariantType.NOZZLE => d2

/-- Every machine entry of the map holds exactly the two variant-type buckets,
in the insertion order `BUILD_PLATE`, `NOZZLE` fixed by `ALL_VARIANT_TYPES`:
the shape `ensureMachine` creates and insertion preserves. -/
def shapeInv (m : MachineMap) : Prop :=
  ∀ mid td, lookup? m mid = some td →
    ∃ d1 d2, td = [(VariantType.BUILD_PLATE, d1), (VariantType.NOZZLE, d2)]

/-- Every node of the map was inserted for a non-excluded record of
`processed`, under the record's own definition id, coerced hardware type and
name. -/
def fromRecords (processed : List VariantMetadata) (m : MachineMap) : Prop :=
  ∀ mid td, lookup? m mid = some td → ∀ t d, lookup? td t = some d →
    ∀ nm node, lookup? d nm = some node →
      ∃ r, r ∈ processed ∧ r.id ∉ exclude_variant_id_list ∧ r.definition = mid ∧
        VariantType.ofString r.hardware_type = some t ∧ r.name = nm ∧
        node = ContainerNode.mk r

/-- A (definition id, variant type, name) triple already has a node in the map. -/
def triplePresent (m : MachineMap) (mid : String) (t : VariantType) (nm : String) : Prop :=
  ∃ td d node, lookup? m mid = some td ∧ lookup? td t = some d ∧ lookup? d nm = some node

/-- Two registry records collide on the (definition, hardware_type, name)
triple. -/
def sameTriple (r1 r2 : VariantMetadata) : Prop :=
  r1.definition = r2.definition ∧ r1.hardware_type = r2.hardware_type ∧ r1.name = r2.name

/-- Every non-excluded record of the registry carries a hardware type that
names a member of the `VariantType` enumeration. -/
def validTypes (records : List VariantMetadata) : Prop :=
  ∀ r ∈ records, r.id ∉ exclude_variant_id_list → (VariantType.ofString r.hardware_type).isSome

/-- The registry yields two non-excluded records (at two distinct positions)
that collide on the (definition, hardware_type, name) triple. -/
def hasCollision (records : List VariantMetadata) : Prop :=
  ∃ l1 r1 l2 r2 l3, records = l1 ++ r1 :: l2 ++ r2 :: l3 ∧
    r1.id ∉ exclude_variant_id_list ∧ r2.id ∉ exclude_variant_id_list ∧ sameTriple r1 r2

/-- A small concrete registry used as evaluation input: the machine "m1" with
build-plate variant "Glass" and nozzle variants "AA 0.4" and "BB 0.8". -/
def demoRecords : List VariantMetadata :=
  [VariantMetadata.mk "v_glass" "Glass" "m1" "buildplate",
   VariantMetadata.mk "v_aa04" "AA 0.4" "m1" "nozzle",
   VariantMetadata.mk "v_bb08" "BB 0.8" "m1" "nozzle"]

/-- The node for the "Glass" build plate of `demoRecords`. -/
def demoGlass : ContainerNode :=
  ContainerNode.mk (VariantMetadata.mk "v_glass" "Glass" "m1" "buildplate")

/-- The node for the "AA 0.4" nozzle of `demoRecords`. -/
def demoAA : ContainerNode :=
  ContainerNode.mk (VariantMetadata.mk "v_aa04" "AA 0.4" "m1" "nozzle")

/-- The node for the "BB 0.8" nozzle of `demoRecords`. -/
def demoBB : ContainerNode :=
  ContainerNode.mk (VariantMetadata.mk "v_bb08" "BB 0.8" "m1" "nozzle")

/-- The per-machine dictionary that initialization builds for "m1" from
`demoRecords`. -/
def demoTd : TypeDict :=
  [(VariantType.BUILD_PLATE, [("Glass", demoGlass)]),
   (VariantType.NOZZLE, [("AA 0.4", demoAA), ("BB 0.8", demoBB)])]

/-- The map that initialization builds from `demoRecords`. -/
def demoMap : MachineMap := [("m1", demoTd)]

/-- A machine whose definition id is "m1". -/
def demoMachine : GlobalStack := GlobalStack.mk (DefinitionContainer.mk "m1" [])

/-- A machine whose definition id is "m2", unknown to `demoMap`. -/
def demoMachine2 : GlobalStack := GlobalStack.mk (DefinitionContainer.mk "m2" [])

example : (initializeMap demoRecords).isOk = true := by decide

example :
    initializeMap [VariantMetadata.mk "v1" "V" "m" "weird"] =
      Except.error (InitError.invalidVariantType "weird") := by rfl

theorem lookup_setKey_self {α β : Type} [DecidableEq α] (l : List (α × β)) (k : α) (v : β) :
    lookup? (setKey l k v) k = some v := by
  induction l with
  | nil => simp [setKey, lookup?]
  | cons hd tl ih =>
    obtain ⟨k0, v0⟩ := hd
    by_cases h : k = k0
    · subst h; simp [setKey, lookup?]
    · simp [setKey, lookup?, h, ih]

theorem lookup_setKey_other {α β : Type} [DecidableEq α] (l : List (α × β)) (k k' : α) (v : β)
    (h : k' ≠ k) : lookup? (setKey l k v) k' = lookup? l k' := by
  induction l with
  | nil => simp [setKey, lookup?, h]
  | cons hd tl ih =>
    obtain ⟨k0, v0⟩ := hd
    by_cases h0 : k = k0
    · subst h0; simp [setKey, lookup?, h]
    · simp [setKey, lookup?, h0, ih]

theorem emptyTypeDict_eq :
    emptyTypeDict = [(VariantType.BUILD_PLATE, []), (VariantType.NOZZLE, [])] := by rfl

theorem lookup_shape (d1 d2 : VariantDict) (t : VariantType) :
    lookup? [(VariantType.BUILD_PLATE, d1), (VariantType.NOZZLE, d2)] t =
      some (typeSel t d1 d2) := by
  cases t <;> rfl

theorem setKey_shape (d1 d2 d : VariantDict) (t : VariantType) :
    setKey [(VariantType.BUILD_PLATE, d1), (VariantType.NOZZLE, d2)] t d =
      (match t with
       | VariantType.BUILD_PLATE => [(VariantType.BUILD_PLATE, d), (VariantType.NOZZLE, d2)]
       | VariantType.NOZZLE => [(VariantType.BUILD_PLATE, d1), (VariantType.NOZZLE, d)]) := by
  cases t <;> rfl

theorem shapeInv_nil : shapeInv [] := by
  intro mid td h
  simp [lookup?] at h

theorem fromRecords_nil : fromRecords [] [] := by
  intro mid td h
  simp [lookup?] at h

theorem ensureMachine_other (m : MachineMap) (mid mid' : String) (he : mid' ≠ mid) :
    lookup? (ensureMachine m mid) mid' = lookup? m mid' := by
  cases hm : lookup? m mid with
  | none => simp [ensureMachine, hm, lookup_setKey_other _ _ _ _ he]
  | some td => simp [ensureMachine, hm]

theorem ensureMachine_self (m : MachineMap) (mid : String) (hs : shapeInv m) :
    ∃ d1 d2, lookup? (ensureMachine m mid) mid =
      some [(VariantType.BUILD_PLATE, d1), (VariantType.NOZZLE, d2)] := by
  cases hm : lookup? m mid with
  | none =>
    refine ⟨[], [], ?_⟩
    simp [ensureMachine, hm, lookup_setKey_self, emptyTypeDict_eq]
  | some td =>
    obtain ⟨d1, d2, rfl⟩ := hs mid td hm
    exact ⟨d1, d2, by simp [ensureMachine, hm]⟩

theorem ensureMachine_shapeInv (m : MachineMap) (mid : String) (hs : shapeInv m) :
    shapeInv (ensureMachine m mid) := by
  intro mid' td h
  by_cases he : mid' = mid
  · subst he
    obtain ⟨d1, d2, hself⟩ := ensureMachine_self m mid' hs
    rw [hself] at h
    exact ⟨d1, d2, (Option.some.inj h).symm⟩
  · rw [ensureMachine_other m mid mid' he] at h
    exact hs mid' td h

theorem ensureMachine_fromRecords (m : MachineMap) (mid : String)
    (processed : List VariantMetadata) (hf : fromRecords processed m) :
    fromRecords processed (ensureMachine m mid) := by
  intro mid' td h t d ht nm node hn
  by_cases he : mid' = mid
  · subst he
    cases hm : lookup? m mid' with
    | none =>
      simp [ensureMachine, hm, lookup_setKey_self] at h
      rw [← h, emptyTypeDict_eq, lookup_shape] at ht
      obtain rfl := Option.some.inj ht
      cases t <;> simp [typeSel, lookup?] at hn
    | some td0 =>
      simp [ensureMachine, hm] at h
      rw [← h] at ht
      exact hf mid' td0 hm t d ht nm node hn
  · rw [ensureMachine_other m mid mid' he] at h
    exact hf mid' td h t d ht nm node hn

theorem insertVariant_eq (m1 : MachineMap) (r : VariantMetadata) (t : VariantType)
    (d1 d2 : VariantDict)
    (hm1 : lookup? m1 r.definition =
      some [(VariantType.BUILD_PLATE, d1), (VariantType.NOZZLE, d2)]) :
    insertVariant m1 r t =
      (if (lookup? (typeSel t d1 d2) r.name).isSome then
        Except.error (InitError.duplicateVariant r.name t r.definition)
      else
        Except.ok (setKey m1 r.definition
          (setKey [(VariantType.BUILD_PLATE, d1), (VariantType.NOZZLE, d2)] t
            (setKey (typeSel t d1 d2) r.name (ContainerNode.mk r))))) := by
  simp [insertVariant, hm1, lookup_shape]


theorem lookup_shape_BP (d1 d2 : VariantDict) :
    lookup? [(VariantType.BUILD_PLATE, d1), (VariantType.NOZZLE, d2)]
      VariantType.BUILD_PLATE = some d1 := rfl

theorem lookup_shape_NZ (d1 d2 : VariantDict) :
    lookup? [(VariantType.BUILD_PLATE, d1), (VariantType.NOZZLE, d2)]
      VariantType.NOZZLE = some d2 := rfl

theorem setKey_shape_BP (d1 d2 d : VariantDict) :
    setKey [(VariantType.BUILD_PLATE, d1), (VariantType.NOZZLE, d2)]
      VariantType.BUILD_PLATE d = [(VariantType.BUILD_PLATE, d), (VariantType.NOZZLE, d2)] := rfl

theorem setKey_shape_NZ (d1 d2 d : VariantDict) :
    setKey [(VariantType.BUILD_PLATE, d1), (VariantType.NOZZLE, d2)]
      VariantType.NOZZLE d = [(VariantType.BUILD_PLATE, d1), (VariantType.NOZZLE, d)] := rfl

theorem inserted_inv (processed : List VariantMetadata) (m1 : MachineMap)
    (r : VariantMetadata) (t : VariantType) (d1 d2 : VariantDict)
    (hm1 : lookup? m1 r.definition =
      some [(VariantType.BUILD_PLATE, d1), (VariantType.NOZZLE, d2)])
    (hs1 : shapeInv m1) (hf1 : fromRecords processed m1)
    (hex : r.id ∉ exclude_variant_id_list)
    (hof : VariantType.ofString r.hardware_type = some t) :
    shapeInv (setKey m1 r.definition
        (setKey [(VariantType.BUILD_PLATE, d1), (VariantType.NOZZLE, d2)] t
          (setKey (typeSel t d1 d2) r.name (ContainerNode.mk r)))) ∧
    fromRecords (processed ++ [r]) (setKey m1 r.definition
        (setKey [(VariantType.BUILD_PLATE, d1), (VariantType.NOZZLE, d2)] t
          (setKey (typeSel t d1 d2) r.name (ContainerNode.mk r)))) := by
  constructor
  · intro mid td h
    by_cases he : mid = r.definition
    · subst he
      rw [lookup_setKey_self] at h
      obtain rfl := (Option.some.inj h).symm
      cases t with
      | BUILD_PLATE => exact ⟨setKey d1 r.name (ContainerNode.mk r), d2, rfl⟩
      | NOZZLE => exact ⟨d1, setKey d2 r.name (ContainerNode.mk r), rfl⟩
    · rw [lookup_setKey_other _ _ _ _ he] at h
      exact hs1 mid td h
  · intro mid td h t' d ht nm node hn
    by_cases he : mid = r.definition
    · subst he
      rw [lookup_setKey_self] at h
      obtain rfl := (Option.some.inj h).symm
      cases t with
      | BUILD_PLATE =>
        simp only [typeSel] at ht
        rw [setKey_shape_BP] at ht
        cases t' with
        | BUILD_PLATE =>
          rw [lookup_shape_BP] at ht
          obtain rfl := Option.some.inj ht
          by_cases hnm : nm = r.name
          · subst hnm
            rw [lookup_setKey_self] at hn
            obtain rfl := (Option.some.inj hn).symm
            exact ⟨r, List.mem_append_right _ (by simp), hex, rfl, hof, rfl, rfl⟩
          · rw [lookup_setKey_other _ _ _ _ hnm] at hn
            obtain ⟨r', hmem, hrest⟩ :=
              hf1 r.definition _ hm1 VariantType.BUILD_PLATE d1 (lookup_shape_BP d1 d2)
                nm node hn
            exact ⟨r', List.mem_append_left _ hmem, hrest⟩
        | NOZZLE =>
          rw [lookup_shape_NZ] at ht
          obtain rfl := Option.some.inj ht
          obtain ⟨r', hmem, hrest⟩ :=
            hf1 r.definition _ hm1 VariantType.NOZZLE d2 (lookup_shape_NZ d1 d2) nm node hn
          exact ⟨r', List.mem_append_left _ hmem, hrest⟩
      | NOZZLE =>
        simp only [typeSel] at ht
        rw [setKey_shape_NZ] at ht
        cases t' with
        | BUILD_PLATE =>
          rw [lookup_shape_BP] at ht
          obtain rfl := Option.some.inj ht
          obtain ⟨r', hmem, hrest⟩ :=
            hf1 r.definition _ hm1 VariantType.BUILD_PLATE d1 (lookup_shape_BP d1 d2)
              nm node hn
          exact ⟨r', List.mem_append_left _ hmem, hrest⟩
        | NOZZLE =>
          rw [lookup_shape_NZ] at ht
          obtain rfl := Option.some.inj ht
          by_cases hnm : nm = r.name
          · subst hnm
            rw [lookup_setKey_self] at hn
            obtain rfl := (Option.some.inj hn).symm
            exact ⟨r, List.mem_append_right _ (by simp), hex, rfl, hof, rfl, rfl⟩
          · rw [lookup_setKey_other _ _ _ _ hnm] at hn
            obtain ⟨r', hmem, hrest⟩ :=
              hf1 r.definition _ hm1 VariantType.NOZZLE d2 (lookup_shape_NZ d1 d2) nm node hn
            exact ⟨r', List.mem_append_left _ hmem, hrest⟩
    · rw [lookup_setKey_other _ _ _ _ he] at h
      obtain ⟨r', hmem, hrest⟩ := hf1 mid td h t' d ht nm node hn
      exact ⟨r', List.mem_append_left _ hmem, hrest⟩

theorem processVariant_excluded (m : MachineMap) (r : VariantMetadata)
    (hex : r.id ∈ exclude_variant_id_list) : processVariant m r = Except.ok m := by
  simp [processVariant, hex]

theorem processVariant_invalid (m : MachineMap) (r : VariantMetadata)
    (hex : r.id ∉ exclude_variant_id_list)
    (hof : VariantType.ofString r.hardware_type = none) :
    processVariant m r = Except.error (InitError.invalidVariantType r.hardware_type) := by
  simp [processVariant, hex, hof]

theorem processVariant_valid (m : MachineMap) (r : VariantMetadata) (t : VariantType)
    (hex : r.id ∉ exclude_variant_id_list)
    (hof : VariantType.ofString r.hardware_type = some t) :
    processVariant m r = insertVariant (ensureMachine m r.definition) r t := by
  simp [processVariant, hex, hof]

theorem processVariant_inv (m m2 : MachineMap) (r : VariantMetadata)
    (processed : List VariantMetadata)
    (hs : shapeInv m) (hf : fromRecords processed m)
    (h : processVariant m r = Except.ok m2) :
    shapeInv m2 ∧ fromRecords (processed ++ [r]) m2 := by
  by_cases hex : r.id ∈ exclude_variant_id_list
  · rw [processVariant_excluded m r hex] at h
    obtain rfl := Except.ok.inj h
    refine ⟨hs, ?_⟩
    intro mid td hmd t d ht nm node hn
    obtain ⟨r', hmem, hrest⟩ := hf mid td hmd t d ht nm node hn
    exact ⟨r', List.mem_append_left _ hmem, hrest⟩
  · cases hof : VariantType.ofString r.hardware_type with
    | none =>
      rw [processVariant_invalid m r hex hof] at h
      exact absurd h (by simp)
    | some t =>
      rw [processVariant_valid m r t hex hof] at h
      have hs1 : shapeInv (ensureMachine m r.definition) := ensureMachine_shapeInv m _ hs
      have hf1 : fromRecords processed (ensureMachine m r.definition) :=
        ensureMachine_fromRecords m _ processed hf
      obtain ⟨d1, d2, hm1⟩ := ensureMachine_self m r.definition hs
      rw [insertVariant_eq _ r t d1 d2 hm1] at h
      by_cases hdup : (lookup? (typeSel t d1 d2) r.name).isSome
      · rw [if_pos hdup] at h
        exact absurd h (by simp)
      · rw [if_neg hdup] at h
        obtain rfl := Except.ok.inj h
        exact inserted_inv processed _ r t d1 d2 hm1 hs1 hf1 hex hof

theorem initFrom_inv (l : List VariantMetadata) :
    ∀ (m mm : MachineMap) (processed : List VariantMetadata),
      shapeInv m → fromRecords processed m → initFrom m l = Except.ok mm →
      shapeInv mm ∧ fromRecords (processed ++ l) mm := by
  induction l with
  | nil =>
    intro m mm processed hs hf h
    obtain rfl := Except.ok.inj h
    exact ⟨hs, by simpa using hf⟩
  | cons r rest ih =>
    intro m mm processed hs hf h
    unfold initFrom at h
    cases hp : processVariant m r with
    | error e => rw [hp] at h; exact absurd h (by simp)
    | ok m2 =>
      rw [hp] at h
      obtain ⟨hs2, hf2⟩ := processVariant_inv m m2 r processed hs hf hp
      have hres := ih m2 mm (processed ++ [r]) hs2 hf2 h
      simpa [List.append_assoc] using hres

theorem initializeMap_inv (records : List VariantMetadata) (mm : MachineMap)
    (h : initializeMap records = Except.ok mm) :
    shapeInv mm ∧ fromRecords records mm := by
  have hres := initFrom_inv records [] mm [] shapeInv_nil fromRecords_nil h
  simpa using hres

theorem getWithOptKey_none (td : TypeDict) : getWithOptKey td none = none := by
  induction td with
  | nil => rfl
  | cons hd tl ih =>
    obtain ⟨t, d⟩ := hd
    simp [getWithOptKey, ih]

theorem getWithOptKey_some (td : TypeDict) (t : VariantType) :
    getWithOptKey td (some t) = lookup? td t := by
  induction td with
  | nil => rfl
  | cons hd tl ih =>
    obtain ⟨t0, d⟩ := hd
    by_cases h : t = t0
    · subst h; simp [getWithOptKey, lookup?]
    · simp [getWithOptKey, lookup?, h, ih]

theorem getVariantNode_none_eq (m : MachineMap) (mid nm : String) (td : TypeDict)
    (hmid : lookup? m mid = some td) :
    getVariantNode m mid nm none = Except.ok (firstMatch (td.map Prod.snd) nm) := by
  simp [getVariantNode, hmid]

/-- Claim C1 (code bug): for a machine id never seen during initialization the
source raises `KeyError` (`self._machine_to_variant_dict_map[machine_definition_id]`
is a direct index in both branches of `getVariantNode`) instead of returning
`None`, both when the variant type is omitted and when it is given: here
evaluated on the map built from `demoRecords`, which never saw "unknown". -/
theorem claim_C1_unknown_machine_raises :
    initializeMap demoRecords = Except.ok demoMap ∧
    getVariantNode demoMap "unknown" "AA 0.4" none =
      Except.error (LookupError.keyError "unknown") ∧
    getVariantNode demoMap "unknown" "AA 0.4" (some VariantType.NOZZLE) =
      Except.error (LookupError.keyError "unknown") :=
  ⟨rfl, rfl, rfl⟩

/-- Claim C10: `getVariantNodes` with the variant type omitted always returns
the empty mapping, for every map and machine — the omitted type (`None`) is
never a key of the inner per-machine dictionary, whose keys are the
`VariantType` members inserted by initialization. -/
theorem claim_C10_omitted_type_empty (m : MachineMap) (machine : GlobalStack) :
    getVariantNodes m machine none = [] := by
  simp [getVariantNodes, getWithOptKey_none]

/-- Claim C5: with a variant type given, `getVariantNodes` returns the complete
name-to-node mapping stored for `(machine.definition.getId(), variant_type)`,
and the empty mapping — without raising, the function is total — when the
machine's definition id or the type is not in the map. -/
theorem claim_C5_variant_nodes (m : MachineMap) (machine : GlobalStack) (t : VariantType) :
    (∀ td d, lookup? m machine.definition.getId = some td → lookup? td t = some d →
      getVariantNodes m machine (some t) = d) ∧
    (lookup? m machine.definition.getId = none → getVariantNodes m machine (some t) = []) ∧
    (∀ td, lookup? m machine.definition.getId = some td → lookup? td t = none →
      getVariantNodes m machine (some t) = []) := by
  refine ⟨?_, ?_, ?_⟩
  · intro td d hmid ht
    simp [getVariantNodes, getWithOptKey_some, hmid, ht]
  · intro hmid
    simp [getVariantNodes, getWithOptKey_some, hmid, lookup?]
  · intro td hmid ht
    simp [getVariantNodes, getWithOptKey_some, hmid, ht]

/-- Claim C7: on a map built by a successful initialization, the type-omitted
`getVariantNode` search iterates the machine's buckets in the fixed enumeration
order `BUILD_PLATE` then `NOZZLE` (the insertion order of the per-machine
dictionary) and returns the node of the first bucket containing the name;
when no bucket contains it the result is `Except.ok none` — absence, not an
error. -/
theorem claim_C7_search_order (records : List VariantMetadata) (mm : MachineMap)
    (h : initializeMap records = Except.ok mm) (mid : String) (td : TypeDict)
    (hmid : lookup? mm mid = some td) (nm : String) :
    ∃ d1 d2, td = [(VariantType.BUILD_PLATE, d1), (VariantType.NOZZLE, d2)] ∧
      getVariantNode mm mid nm none =
        Except.ok (match lookup? d1 nm with
          | some node => some node
          | none => lookup? d2 nm) := by
  obtain ⟨hs, _⟩ := initializeMap_inv records mm h
  obtain ⟨d1, d2, rfl⟩ := hs mid td hmid
  refine ⟨d1, d2, rfl, ?_⟩
  rw [getVariantNode_none_eq mm mid nm _ hmid]
  cases hd1 : lookup? d1 nm with
  | some node => simp [firstMatch, hd1]
  | none =>
    cases hd2 : lookup? d2 nm with
    | some node => simp [firstMatch, hd1, hd2]
    | none => simp [firstMatch, hd1, hd2]

/-- Claim C3: every (machine, type, name) triple stored by a successful
initialization is found again: the typed `getVariantNode` returns exactly the
stored node, and the type-omitted `getVariantNode` also returns a node whose
name matches (possibly the same-named node of the earlier bucket). -/
theorem claim_C3_insert_lookup (records : List VariantMetadata) (mm : MachineMap)
    (h : initializeMap records = Except.ok mm) (mid : String) (td : TypeDict)
    (t : VariantType) (d : VariantDict) (nm : String) (node : ContainerNode)
    (hmid : lookup? mm mid = some td) (ht : lookup? td t = some d)
    (hnm : lookup? d nm = some node) :
    getVariantNode mm mid nm (some t) = Except.ok (some node) ∧
    ∃ node2, getVariantNode mm mid nm none = Except.ok (some node2) ∧
      node2.metadata.name = nm := by
  obtain ⟨hs, hf⟩ := initializeMap_inv records mm h
  obtain ⟨d1, d2, rfl⟩ := hs mid td hmid
  constructor
  · simp [getVariantNode, hmid, ht, hnm]
  · rw [getVariantNode_none_eq mm mid nm _ hmid]
    cases t with
    | BUILD_PLATE =>
      rw [lookup_shape_BP] at ht
      obtain rfl := Option.some.inj ht
      refine ⟨node, by simp [firstMatch, hnm], ?_⟩
      obtain ⟨r', _, _, _, _, hname, hnode⟩ :=
        hf mid _ hmid VariantType.BUILD_PLATE d1 (lookup_shape_BP d1 d2) nm node hnm
      rw [hnode]
      exact hname
    | NOZZLE =>
      rw [lookup_shape_NZ] at ht
      obtain rfl := Option.some.inj ht
      cases hd1 : lookup? d1 nm with
      | some node1 =>
        refine ⟨node1, by simp [firstMatch, hd1], ?_⟩
        obtain ⟨r', _, _, _, _, hname, hnode⟩ :=
          hf mid _ hmid VariantType.BUILD_PLATE d1 (lookup_shape_BP d1 d2) nm node1 hd1
        rw [hnode]
        exact hname
      | none =>
        refine ⟨node, by simp [firstMatch, hd1, hnm], ?_⟩
        obtain ⟨r', _, _, _, _, hname, hnode⟩ :=
          hf mid _ hmid VariantType.NOZZLE d2 (lookup_shape_NZ d1 d2) nm node hnm
        rw [hnode]
        exact hname

theorem getVariantNode_result_mem (m : MachineMap) (hs : shapeInv m) (mid nm : String)
    (vt : Option VariantType) (node : ContainerNode)
    (h : getVariantNode m mid nm vt = Except.ok (some node)) :
    ∃ td t d, lookup? m mid = some td ∧ lookup? td t = some d ∧ lookup? d nm = some node := by
  cases vt with
  | none =>
    cases hmid : lookup? m mid with
    | none => simp [getVariantNode, hmid] at h
    | some td =>
      obtain ⟨d1, d2, rfl⟩ := hs mid td hmid
      simp [getVariantNode, hmid] at h
      cases hd1 : lookup? d1 nm with
      | some node1 =>
        simp [firstMatch, hd1] at h
        obtain rfl := h
        exact ⟨_, VariantType.BUILD_PLATE, d1, rfl, lookup_shape_BP d1 d2, hd1⟩
      | none =>
        cases hd2 : lookup? d2 nm with
        | some node2 =>
          simp [firstMatch, hd1, hd2] at h
          obtain rfl := h
          exact ⟨_, VariantType.NOZZLE, d2, rfl, lookup_shape_NZ d1 d2, hd2⟩
        | none => simp [firstMatch, hd1, hd2] at h
  | some t =>
    cases hmid : lookup? m mid with
    | none => simp [getVariantNode, hmid] at h
    | some td =>
      cases ht : lookup? td t with
      | none => simp [getVariantNode, hmid, ht, lookup?] at h
      | some d =>
        simp [getVariantNode, hmid, ht] at h
        exact ⟨td, t, d, rfl, ht, h⟩

theorem getDefaultVariantNode_delegates (m : MachineMap) (md : DefinitionContainer)
    (t : VariantType) :
    getDefaultVariantNode m md t = Except.ok none ∨
    ∃ nm, nm ≠ "" ∧ getDefaultVariantNode m md t = getVariantNode m md.getId nm (some t) := by
  cases t with
  | BUILD_PLATE =>
    cases hflag : parseBool (md.getMetaDataEntry "has_variant_buildplates") with
    | false => left; simp [getDefaultVariantNode, hflag]
    | true =>
      cases hpn : md.getMetaDataEntry "preferred_variant_buildplate_name" with
      | none => left; simp [getDefaultVariantNode, hflag, hpn]
      | some nm =>
        by_cases hnm : nm = ""
        · left; simp [getDefaultVariantNode, hflag, hpn, hnm]
        · right; exact ⟨nm, hnm, by simp [getDefaultVariantNode, hflag, hpn, hnm]⟩
  | NOZZLE =>
    cases hflag : parseBool (md.getMetaDataEntry "has_variants") with
    | false => left; simp [getDefaultVariantNode, hflag]
    | true =>
      cases hpn : md.getMetaDataEntry "preferred_variant_name" with
      | none => left; simp [getDefaultVariantNode, hflag, hpn]
      | some nm =>
        by_cases hnm : nm = ""
        · left; simp [getDefaultVariantNode, hflag, hpn, hnm]
        · right; exact ⟨nm, hnm, by simp [getDefaultVariantNode, hflag, hpn, hnm]⟩

/-- Claim C4: a record whose id is in the exclusion list (`"empty_variant"`)
is never inserted by initialization — every stored node keeps a non-excluded
id — and consequently no node returned by `getVariantNode`, `getVariantNodes`
or `getDefaultVariantNode` carries an excluded id. -/
theorem claim_C4_exclusion (records : List VariantMetadata) (mm : MachineMap)
    (h : initializeMap records = Except.ok mm) :
    (∀ mid td t d nm node, lookup? mm mid = some td → lookup? td t = some d →
      lookup? d nm = some node → node.metadata.id ∉ exclude_variant_id_list) ∧
    (∀ mid nm vt node, getVariantNode mm mid nm vt = Except.ok (some node) →
      node.metadata.id ∉ exclude_variant_id_list) ∧
    (∀ machine vt nm node, lookup? (getVariantNodes mm machine vt) nm = some node →
      node.metadata.id ∉ exclude_variant_id_list) ∧
    (∀ md vt node, getDefaultVariantNode mm md vt = Except.ok (some node) →
      node.metadata.id ∉ exclude_variant_id_list) := by
  obtain ⟨hs, hf⟩ := initializeMap_inv records mm h
  have part1 : ∀ mid td t d nm node, lookup? mm mid = some td → lookup? td t = some d →
      lookup? d nm = some node → node.metadata.id ∉ exclude_variant_id_list := by
    intro mid td t d nm node h1 h2 h3
    obtain ⟨r', _, hid, _, _, _, hnode⟩ := hf mid td h1 t d h2 nm node h3
    rw [hnode]
    exact hid
  have part2 : ∀ mid nm vt node, getVariantNode mm mid nm vt = Except.ok (some node) →
      node.metadata.id ∉ exclude_variant_id_list := by
    intro mid nm vt node hq
    obtain ⟨td, t, d, h1, h2, h3⟩ := getVariantNode_result_mem mm hs mid nm vt node hq
    exact part1 mid td t d nm node h1 h2 h3
  refine ⟨part1, part2, ?_, ?_⟩
  · intro machine vt nm node hq
    cases hmid : lookup? mm machine.definition.getId with
    | none => simp [getVariantNodes, hmid, getWithOptKey, lookup?] at hq
    | some td =>
      cases vt with
      | none => simp [getVariantNodes, hmid, getWithOptKey_none, lookup?] at hq
      | some t =>
        cases ht : lookup? td t with
        | none => simp [getVariantNodes, hmid, getWithOptKey_some, ht, lookup?] at hq
        | some d =>
          simp [getVariantNodes, hmid, getWithOptKey_some, ht] at hq
          exact part1 _ td t d nm node hmid ht hq
  · intro md vt node hq
    rcases getDefaultVariantNode_delegates mm md vt with hcase | ⟨nm, _, hcase⟩
    · rw [hcase] at hq
      simp at hq
    · rw [hcase] at hq
      exact part2 _ nm (some vt) node hq

/-- Claim C4 witness: the stored "Glass" node returned by the type-omitted
search on the demo map has a non-excluded id. -/
theorem claim_C4_witness : demoGlass.metadata.id ∉ exclude_variant_id_list :=
  (claim_C4_exclusion demoRecords demoMap rfl).2.1 "m1" "Glass" none demoGlass rfl

/-- Claim C3 witness: the "AA 0.4" nozzle stored by initialization of the demo
registry is found by the typed lookup, and the type-omitted lookup returns a
node named "AA 0.4". -/
theorem claim_C3_witness :
    getVariantNode demoMap "m1" "AA 0.4" (some VariantType.NOZZLE) =
      Except.ok (some demoAA) ∧
    ∃ node2, getVariantNode demoMap "m1" "AA 0.4" none = Except.ok (some node2) ∧
      node2.metadata.name = "AA 0.4" :=
  claim_C3_insert_lookup demoRecords demoMap rfl "m1" demoTd VariantType.NOZZLE
    [("AA 0.4", demoAA), ("BB 0.8", demoBB)] "AA 0.4" demoAA rfl rfl rfl

/-- Claim C5 witness: the demo machine's nozzle mapping is returned complete;
an unknown machine and a missing type give the empty mapping. -/
theorem claim_C5_witness :
    getVariantNodes demoMap demoMachine (some VariantType.NOZZLE) =
      [("AA 0.4", demoAA), ("BB 0.8", demoBB)] ∧
    getVariantNodes demoMap demoMachine2 (some VariantType.NOZZLE) = [] ∧
    getVariantNodes [("m2", [])] demoMachine2 (some VariantType.NOZZLE) = [] :=
  ⟨(claim_C5_variant_nodes demoMap demoMachine VariantType.NOZZLE).1 demoTd
      [("AA 0.4", demoAA), ("BB 0.8", demoBB)] rfl rfl,
   (claim_C5_variant_nodes demoMap demoMachine2 VariantType.NOZZLE).2.1 rfl,
   (claim_C5_variant_nodes [("m2", [])] demoMachine2 VariantType.NOZZLE).2.2 [] rfl rfl⟩

/-- Claim C7 witness: on the demo map the machine "m1" holds the two buckets in
order and the type-omitted search for "Glass" returns the first-bucket node. -/
theorem claim_C7_witness :
    ∃ d1 d2, demoTd = [(VariantType.BUILD_PLATE, d1), (VariantType.NOZZLE, d2)] ∧
      getVariantNode demoMap "m1" "Glass" none =
        Except.ok (match lookup? d1 "Glass" with
          | some node => some node
          | none => lookup? d2 "Glass") :=
  claim_C7_search_order demoRecords demoMap rfl "m1" demoTd rfl "Glass"

/-- Claim C6: `getDefaultVariantNode` returns "not found" whenever the relevant
capability flag (`has_variant_buildplates` for the build-plate type,
`has_variants` otherwise) parses false — also when a preferred-name entry is
present — or when no preferred name is configured (the entry is absent, or is
the empty string, which the source's truthiness test `if preferred_variant_name:`
treats as unconfigured); otherwise its result is exactly the typed
`getVariantNode` lookup at the preferred name. -/
theorem claim_C6_default_variant (m : MachineMap) (md : DefinitionContainer)
    (t : VariantType) :
    (parseBool (md.getMetaDataEntry (capabilityFlagKey t)) = false →
      getDefaultVariantNode m md t = Except.ok none) ∧
    (md.getMetaDataEntry (preferredNameKey t) = none →
      getDefaultVariantNode m md t = Except.ok none) ∧
    (md.getMetaDataEntry (preferredNameKey t) = some "" →
      getDefaultVariantNode m md t = Except.ok none) ∧
    (∀ nm, parseBool (md.getMetaDataEntry (capabilityFlagKey t)) = true →
      md.getMetaDataEntry (preferredNameKey t) = some nm → nm ≠ "" →
      getDefaultVariantNode m md t = getVariantNode m md.getId nm (some t)) := by
  cases t with
  | BUILD_PLATE =>
    refine ⟨?_, ?_, ?_, ?_⟩
    · intro hflag
      simp only [capabilityFlagKey] at hflag
      simp [getDefaultVariantNode, hflag]
    · intro hpn
      simp only [preferredNameKey] at hpn
      cases hflag : parseBool (md.getMetaDataEntry "has_variant_buildplates") with
      | false => simp [getDefaultVariantNode, hflag]
      | true => simp [getDefaultVariantNode, hflag, hpn]
    · intro hpn
      simp only [preferredNameKey] at hpn
      cases hflag : parseBool (md.getMetaDataEntry "has_variant_buildplates") with
      | false => simp [getDefaultVariantNode, hflag]
      | true => simp [getDefaultVariantNode, hflag, hpn]
    · intro nm hflag hpn hnm
      simp only [capabilityFlagKey] at hflag
      simp only [preferredNameKey] at hpn
      simp [getDefaultVariantNode, hflag, hpn, hnm]
  | NOZZLE =>
    refine ⟨?_, ?_, ?_, ?_⟩
    · intro hflag
      simp only [capabilityFlagKey] at hflag
      simp [getDefaultVariantNode, hflag]
    · intro hpn
      simp only [preferredNameKey] at hpn
      cases hflag : parseBool (md.getMetaDataEntry "has_variants") with
      | false => simp [getDefaultVariantNode, hflag]
      | true => simp [getDefaultVariantNode, hflag, hpn]
    · intro hpn
      simp only [preferredNameKey] at hpn
      cases hflag : parseBool (md.getMetaDataEntry "has_variants") with
      | false => simp [getDefaultVariantNode, hflag]
      | true => simp [getDefaultVariantNode, hflag, hpn]
    · intro nm hflag hpn hnm
      simp only [capabilityFlagKey] at hflag
      simp only [preferredNameKey] at hpn
      simp [getDefaultVariantNode, hflag, hpn, hnm]

/-- A machine definition whose `has_variants` flag is true and whose preferred
nozzle name is "AA 0.4". -/
def demoDef : DefinitionContainer :=
  DefinitionContainer.mk "m1" [("has_variants", "true"), ("preferred_variant_name", "AA 0.4")]

/-- A machine definition with a preferred nozzle name but no `has_variants`
flag. -/
def demoDefOff : DefinitionContainer :=
  DefinitionContainer.mk "m1" [("preferred_variant_name", "AA 0.4")]

/-- Claim C6 witness: with the flag absent the preferred name is ignored; with
the flag set the result is the typed lookup. -/
theorem claim_C6_witness :
    getDefaultVariantNode demoMap demoDefOff VariantType.NOZZLE = Except.ok none ∧
    getDefaultVariantNode demoMap demoDef VariantType.NOZZLE =
      getVariantNode demoMap "m1" "AA 0.4" (some VariantType.NOZZLE) :=
  ⟨(claim_C6_default_variant demoMap demoDefOff VariantType.NOZZLE).1 rfl,
   (claim_C6_default_variant demoMap demoDef VariantType.NOZZLE).2.2.2 "AA 0.4" rfl rfl
     (by decide)⟩

/-- Claim C8: initialization is a wholesale rebuild — it starts from a fresh
empty map, so its result never depends on the manager's prior state; running
it a second time over identical registry contents therefore succeeds with the
very same map, and all three query methods answer identically. -/
theorem claim_C8_idempotent (vm vm' : VariantManager) (records : List VariantMetadata)
    (h : vm.initializeWith records = Except.ok vm') :
    ∃ vm'', vm'.initializeWith records = Except.ok vm'' ∧
      (∀ mid nm vt, getVariantNode vm''.machine_to_variant_dict_map mid nm vt =
        getVariantNode vm'.machine_to_variant_dict_map mid nm vt) ∧
      (∀ machine vt, getVariantNodes vm''.machine_to_variant_dict_map machine vt =
        getVariantNodes vm'.machine_to_variant_dict_map machine vt) ∧
      (∀ md t, getDefaultVariantNode vm''.machine_to_variant_dict_map md t =
        getDefaultVariantNode vm'.machine_to_variant_dict_map md t) := by
  refine ⟨vm', ?_, fun _ _ _ => rfl, fun _ _ => rfl, fun _ _ => rfl⟩
  have hsame : vm'.initializeWith records = vm.initializeWith records := rfl
  rw [hsame, h]

/-- Claim C8 witness: rebuilding from the demo registry twice gives a manager
answering all queries like the first build. -/
theorem claim_C8_witness :
    ∃ vm'', (VariantManager.mk demoMap).initializeWith demoRecords = Except.ok vm'' ∧
      (∀ mid nm vt, getVariantNode vm''.machine_to_variant_dict_map mid nm vt =
        getVariantNode (VariantManager.mk demoMap).machine_to_variant_dict_map mid nm vt) ∧
      (∀ machine vt, getVariantNodes vm''.machine_to_variant_dict_map machine vt =
        getVariantNodes (VariantManager.mk demoMap).machine_to_variant_dict_map machine vt) ∧
      (∀ md t, getDefaultVariantNode vm''.machine_to_variant_dict_map md t =
        getDefaultVariantNode (VariantManager.mk demoMap).machine_to_variant_dict_map md t) :=
  claim_C8_idempotent (VariantManager.mk []) (VariantManager.mk demoMap) demoRecords rfl

/-- Claim C9: a non-excluded record whose hardware type string names no member
of the `VariantType` enumeration makes initialization fail with an error — the
record is never silently dropped. -/
theorem claim_C9_invalid_type_error (records : List VariantMetadata) (r : VariantMetadata)
    (hmem : r ∈ records) (hex : r.id ∉ exclude_variant_id_list)
    (hof : VariantType.ofString r.hardware_type = none) :
    ∃ e, initializeMap records = Except.error e := by
  have main : ∀ (l : List VariantMetadata) (m : MachineMap), r ∈ l →
      ∃ e, initFrom m l = Except.error e := by
    intro l
    induction l with
    | nil => intro m hmem2; simp at hmem2
    | cons r0 rest ih =>
      intro m hmem2
      rcases List.mem_cons.mp hmem2 with rfl | htl
      · refine ⟨InitError.invalidVariantType r.hardware_type, ?_⟩
        unfold initFrom
        rw [processVariant_invalid m r hex hof]
      · cases hp : processVariant m r0 with
        | error e => exact ⟨e, by unfold initFrom; rw [hp]⟩
        | ok m2 =>
          obtain ⟨e, he⟩ := ih m2 htl
          exact ⟨e, by unfold initFrom; rw [hp]; exact he⟩
  exact main records [] hmem

/-- Claim C9 witness: a registry holding one record with hardware type "weird"
fails to initialize. -/
theorem claim_C9_witness :
    ∃ e, initializeMap [VariantMetadata.mk "v1" "V" "m" "weird"] = Except.error e :=
  claim_C9_invalid_type_error [VariantMetadata.mk "v1" "V" "m" "weird"]
    (VariantMetadata.mk "v1" "V" "m" "weird") (by simp) (by decide) rfl

theorem inserted_shape (m1 : MachineMap) (r : VariantMetadata) (t : VariantType)
    (d1 d2 : VariantDict) (hs1 : shapeInv m1) :
    shapeInv (setKey m1 r.definition
      (setKey [(VariantType.BUILD_PLATE, d1), (VariantType.NOZZLE, d2)] t
        (setKey (typeSel t d1 d2) r.name (ContainerNode.mk r)))) := by
  intro mid td h
  by_cases he : mid = r.definition
  · subst he
    rw [lookup_setKey_self] at h
    obtain rfl := (Option.some.inj h).symm
    cases t with
    | BUILD_PLATE => exact ⟨setKey d1 r.name (ContainerNode.mk r), d2, rfl⟩
    | NOZZLE => exact ⟨d1, setKey d2 r.name (ContainerNode.mk r), rfl⟩
  · rw [lookup_setKey_other _ _ _ _ he] at h
    exact hs1 mid td h

theorem processVariant_shape (m m2 : MachineMap) (r : VariantMetadata)
    (hs : shapeInv m) (h : processVariant m r = Except.ok m2) : shapeInv m2 := by
  by_cases hex : r.id ∈ exclude_variant_id_list
  · rw [processVariant_excluded m r hex] at h
    obtain rfl := Except.ok.inj h
    exact hs
  · cases hof : VariantType.ofString r.hardware_type with
    | none =>
      rw [processVariant_invalid m r hex hof] at h
      simp at h
    | some t =>
      rw [processVariant_valid m r t hex hof] at h
      obtain ⟨d1, d2, hm1⟩ := ensureMachine_self m r.definition hs
      have hs1 := ensureMachine_shapeInv m r.definition hs
      rw [insertVariant_eq _ r t d1 d2 hm1] at h
      by_cases hdup : (lookup? (typeSel t d1 d2) r.name).isSome
      · rw [if_pos hdup] at h
        simp at h
      · rw [if_neg hdup] at h
        obtain rfl := Except.ok.inj h
        exact inserted_shape _ r t d1 d2 hs1

theorem ensureMachine_triple (m : MachineMap) (mid df : String) (t : VariantType)
    (nm : String) (hp : triplePresent m df t nm) :
    triplePresent (ensureMachine m mid) df t nm := by
  obtain ⟨td, d, node, h1, h2, h3⟩ := hp
  by_cases he : df = mid
  · subst he
    refine ⟨td, d, node, ?_, h2, h3⟩
    simp [ensureMachine, h1]
  · exact ⟨td, d, node, by rw [ensureMachine_other m mid df he]; exact h1, h2, h3⟩

theorem lookup_setKey_pair_self (d1 d2 : VariantDict) (t : VariantType) (d : VariantDict) :
    lookup? (setKey [(VariantType.BUILD_PLATE, d1), (VariantType.NOZZLE, d2)] t d) t =
      some d := by
  cases t
  · rw [setKey_shape_BP]
    exact lookup_shape_BP _ _
  · rw [setKey_shape_NZ]
    exact lookup_shape_NZ _ _

theorem inserted_triple (m1 : MachineMap) (r : VariantMetadata) (t : VariantType)
    (d1 d2 : VariantDict)
    (hm1 : lookup? m1 r.definition =
      some [(VariantType.BUILD_PLATE, d1), (VariantType.NOZZLE, d2)])
    (df : String) (t' : VariantType) (nm : String)
    (hp : triplePresent m1 df t' nm) :
    triplePresent (setKey m1 r.definition
      (setKey [(VariantType.BUILD_PLATE, d1), (VariantType.NOZZLE, d2)] t
        (setKey (typeSel t d1 d2) r.name (ContainerNode.mk r)))) df t' nm := by
  obtain ⟨td, d, node, h1, h2, h3⟩ := hp
  by_cases he : df = r.definition
  · subst he
    rw [hm1] at h1
    obtain rfl := Option.some.inj h1
    by_cases htt : t' = t
    · subst htt
      rw [lookup_shape] at h2
      obtain rfl := Option.some.inj h2
      by_cases hnm : nm = r.name
      · subst hnm
        exact ⟨_, _, ContainerNode.mk r, lookup_setKey_self _ _ _,
          lookup_setKey_pair_self d1 d2 t' _, lookup_setKey_self _ _ _⟩
      · exact ⟨_, _, node, lookup_setKey_self _ _ _,
          lookup_setKey_pair_self d1 d2 t' _,
          by rw [lookup_setKey_other _ _ _ _ hnm]; exact h3⟩
    · exact ⟨_, _, node, lookup_setKey_self _ _ _,
        by rw [lookup_setKey_other _ _ _ _ htt]; exact h2, h3⟩
  · exact ⟨td, d, node, by rw [lookup_setKey_other _ _ _ _ he]; exact h1, h2, h3⟩

theorem processVariant_triple (m m2 : MachineMap) (r : VariantMetadata)
    (hs : shapeInv m) (h : processVariant m r = Except.ok m2)
    (df : String) (t' : VariantType) (nm : String)
    (hp : triplePresent m df t' nm) : triplePresent m2 df t' nm := by
  by_cases hex : r.id ∈ exclude_variant_id_list
  · rw [processVariant_excluded m r hex] at h
    obtain rfl := Except.ok.inj h
    exact hp
  · cases hof : VariantType.ofString r.hardware_type with
    | none =>
      rw [processVariant_invalid m r hex hof] at h
      simp at h
    | some t =>
      rw [processVariant_valid m r t hex hof] at h
      obtain ⟨d1, d2, hm1⟩ := ensureMachine_self m r.definition hs
      rw [insertVariant_eq _ r t d1 d2 hm1] at h
      have hp1 := ensureMachine_triple m r.definition df t' nm hp
      by_cases hdup : (lookup? (typeSel t d1 d2) r.name).isSome
      · rw [if_pos hdup] at h
        simp at h
      · rw [if_neg hdup] at h
        obtain rfl := Except.ok.inj h
        exact inserted_triple _ r t d1 d2 hm1 df t' nm hp1

theorem processVariant_adds (m m2 : MachineMap) (r : VariantMetadata) (t : VariantType)
    (hs : shapeInv m) (hex : r.id ∉ exclude_variant_id_list)
    (hof : VariantType.ofString r.hardware_type = some t)
    (h : processVariant m r = Except.ok m2) :
    triplePresent m2 r.definition t r.name := by
  rw [processVariant_valid m r t hex hof] at h
  obtain ⟨d1, d2, hm1⟩ := ensureMachine_self m r.definition hs
  rw [insertVariant_eq _ r t d1 d2 hm1] at h
  by_cases hdup : (lookup? (typeSel t d1 d2) r.name).isSome
  · rw [if_pos hdup] at h
    simp at h
  · rw [if_neg hdup] at h
    obtain rfl := Except.ok.inj h
    exact ⟨_, _, ContainerNode.mk r, lookup_setKey_self _ _ _,
      lookup_setKey_pair_self d1 d2 t _, lookup_setKey_self _ _ _⟩

theorem ofString_eq_BP (a : String)
    (ha : VariantType.ofString a = some VariantType.BUILD_PLATE) : a = "buildplate" := by
  by_cases h1 : a = "buildplate"
  · exact h1
  · by_cases h2 : a = "nozzle"
    · simp [VariantType.ofString, h1, h2] at ha
    · simp [VariantType.ofString, h1, h2] at ha

theorem ofString_eq_NZ (a : String)
    (ha : VariantType.ofString a = some VariantType.NOZZLE) : a = "nozzle" := by
  by_cases h1 : a = "buildplate"
  · simp [VariantType.ofString, h1] at ha
  · by_cases h2 : a = "nozzle"
    · exact h2
    · simp [VariantType.ofString, h1, h2] at ha

theorem ofString_inj (a b : String) (t : VariantType)
    (ha : VariantType.ofString a = some t) (hb : VariantType.ofString b = some t) :
    a = b := by
  cases t
  · rw [ofString_eq_BP a ha, ofString_eq_BP b hb]
  · rw [ofString_eq_NZ a ha, ofString_eq_NZ b hb]

theorem processVariant_ok_of_fresh (m : MachineMap) (processed : List VariantMetadata)
    (r : VariantMetadata) (t : VariantType)
    (hs : shapeInv m) (hf : fromRecords processed m)
    (hex : r.id ∉ exclude_variant_id_list)
    (hof : VariantType.ofString r.hardware_type = some t)
    (hfresh : ∀ r' ∈ processed, r'.id ∉ exclude_variant_id_list → ¬ sameTriple r' r) :
    ∃ m2, processVariant m r = Except.ok m2 := by
  rw [processVariant_valid m r t hex hof]
  obtain ⟨d1, d2, hm1⟩ := ensureMachine_self m r.definition hs
  rw [insertVariant_eq _ r t d1 d2 hm1]
  have hf1 : fromRecords processed (ensureMachine m r.definition) :=
    ensureMachine_fromRecords m r.definition processed hf
  cases hlk : lookup? (typeSel t d1 d2) r.name with
  | none =>
    exact ⟨setKey (ensureMachine m r.definition) r.definition
      (setKey [(VariantType.BUILD_PLATE, d1), (VariantType.NOZZLE, d2)] t
        (setKey (typeSel t d1 d2) r.name (ContainerNode.mk r))), by simp [hlk]⟩
  | some node =>
    exfalso
    obtain ⟨r', hmem', hex', hdef', hof', hname', _⟩ :=
      hf1 r.definition _ hm1 t (typeSel t d1 d2) (lookup_shape d1 d2 t) r.name node hlk
    exact hfresh r' hmem' hex' ⟨hdef', ofString_inj _ _ t hof' hof, hname'⟩

theorem hasCollision_cons (r : VariantMetadata) (rest : List VariantMetadata)
    (h : hasCollision rest) : hasCollision (r :: rest) := by
  obtain ⟨l1, r1, l2, r2, l3, heq, h1, h2, h3⟩ := h
  exact ⟨r :: l1, r1, l2, r2, l3, by rw [heq]; rfl, h1, h2, h3⟩

theorem initFrom_ok (l : List VariantMetadata) :
    ∀ (m : MachineMap) (processed : List VariantMetadata),
      shapeInv m → fromRecords processed m → validTypes l →
      (∀ r1 ∈ processed, ∀ r2 ∈ l, r1.id ∉ exclude_variant_id_list →
        r2.id ∉ exclude_variant_id_list → ¬ sameTriple r1 r2) →
      ¬ hasCollision l →
      ∃ mm, initFrom m l = Except.ok mm := by
  induction l with
  | nil =>
    intro m processed _ _ _ _ _
    exact ⟨m, rfl⟩
  | cons r rest ih =>
    intro m processed hs hf hvalid hcross hnocol
    by_cases hex : r.id ∈ exclude_variant_id_list
    · have hvalid2 : validTypes rest := fun r2 h2 => hvalid r2 (List.mem_cons_of_mem r h2)
      have hcross2 : ∀ r1 ∈ processed, ∀ r2 ∈ rest, r1.id ∉ exclude_variant_id_list →
          r2.id ∉ exclude_variant_id_list → ¬ sameTriple r1 r2 :=
        fun r1 h1 r2 h2 he1 he2 => hcross r1 h1 r2 (List.mem_cons_of_mem r h2) he1 he2
      have hnocol2 : ¬ hasCollision rest := fun hc => hnocol (hasCollision_cons r rest hc)
      obtain ⟨mm, hmm⟩ := ih m processed hs hf hvalid2 hcross2 hnocol2
      exact ⟨mm, by unfold initFrom; rw [processVariant_excluded m r hex]; exact hmm⟩
    · have hv : (VariantType.ofString r.hardware_type).isSome = true :=
        hvalid r (by simp) hex
      obtain ⟨t, hof⟩ := Option.isSome_iff_exists.mp hv
      have hfresh : ∀ r' ∈ processed, r'.id ∉ exclude_variant_id_list → ¬ sameTriple r' r :=
        fun r' hm' he' => hcross r' hm' r (by simp) he' hex
      obtain ⟨m2, hm2⟩ := processVariant_ok_of_fresh m processed r t hs hf hex hof hfresh
      obtain ⟨hs2, hf2⟩ := processVariant_inv m m2 r processed hs hf hm2
      have hcross2 : ∀ r1 ∈ processed ++ [r], ∀ r2 ∈ rest,
          r1.id ∉ exclude_variant_id_list → r2.id ∉ exclude_variant_id_list →
          ¬ sameTriple r1 r2 := by
        intro r1 hr1 r2 hr2 he1 he2
        rcases List.mem_append.mp hr1 with hr1p | hr1s
        · exact hcross r1 hr1p r2 (List.mem_cons_of_mem r hr2) he1 he2
        · have hreq : r1 = r := by simpa using hr1s
          subst hreq
          intro hsame
          apply hnocol
          obtain ⟨l2a, l2b, rfl⟩ := List.append_of_mem hr2
          exact ⟨[], r1, l2a, r2, l2b, rfl, he1, he2, hsame⟩
      have hvalid2 : validTypes rest := fun r2 h2 => hvalid r2 (List.mem_cons_of_mem r h2)
      have hnocol2 : ¬ hasCollision rest := fun hc => hnocol (hasCollision_cons r rest hc)
      obtain ⟨mm, hmm⟩ := ih m2 (processed ++ [r]) hs2 hf2 hvalid2 hcross2 hnocol2
      exact ⟨mm, by unfold initFrom; rw [hm2]; exact hmm⟩

theorem insertVariant_error (m1 : MachineMap) (r : VariantMetadata) (t : VariantType)
    (e0 : InitError) (h : insertVariant m1 r t = Except.error e0) :
    e0 = InitError.duplicateVariant r.name t r.definition := by
  unfold insertVariant at h
  by_cases hdup :
      (lookup? ((lookup? ((lookup? m1 r.definition).getD []) t).getD []) r.name).isSome
  · rw [if_pos hdup] at h
    exact (Except.error.inj h).symm
  · rw [if_neg hdup] at h
    simp at h

theorem initFrom_error_shape (l : List VariantMetadata) :
    ∀ (m : MachineMap) (e : InitError), validTypes l →
      initFrom m l = Except.error e →
      ∃ nm t df, e = InitError.duplicateVariant nm t df := by
  induction l with
  | nil =>
    intro m e _ h
    simp [initFrom] at h
  | cons r rest ih =>
    intro m e hvalid h
    unfold initFrom at h
    cases hp : processVariant m r with
    | error e0 =>
      rw [hp] at h
      obtain rfl := Except.error.inj h
      by_cases hex : r.id ∈ exclude_variant_id_list
      · rw [processVariant_excluded m r hex] at hp
        simp at hp
      · cases hof : VariantType.ofString r.hardware_type with
        | none =>
          have hv := hvalid r (by simp) hex
          rw [hof] at hv
          simp at hv
        | some t =>
          rw [processVariant_valid m r t hex hof] at hp
          exact ⟨r.name, t, r.definition, insertVariant_error _ r t _ hp⟩
    | ok m2 =>
      rw [hp] at h
      exact ih m2 e (fun r2 h2 => hvalid r2 (List.mem_cons_of_mem r h2)) h

theorem initFrom_error_of_present (l : List VariantMetadata) :
    ∀ (m : MachineMap), shapeInv m →
      ∀ r2 ∈ l, r2.id ∉ exclude_variant_id_list →
      ∀ t, VariantType.ofString r2.hardware_type = some t →
      triplePresent m r2.definition t r2.name →
      ∃ e, initFrom m l = Except.error e := by
  induction l with
  | nil =>
    intro m _ r2 h2
    simp at h2
  | cons r0 rest ih =>
    intro m hs r2 hmem hex2 t hof2 hp
    cases hp0 : processVariant m r0 with
    | error e => exact ⟨e, by unfold initFrom; rw [hp0]⟩
    | ok m2 =>
      rcases List.mem_cons.mp hmem with hreq | htl
      · exfalso
        subst hreq
        rw [processVariant_valid m r2 t hex2 hof2] at hp0
        obtain ⟨d1, d2, hm1⟩ := ensureMachine_self m r2.definition hs
        rw [insertVariant_eq _ r2 t d1 d2 hm1] at hp0
        have hp1 := ensureMachine_triple m r2.definition r2.definition t r2.name hp
        obtain ⟨td, d, node, h1, h2, h3⟩ := hp1
        rw [hm1] at h1
        obtain rfl := Option.some.inj h1
        rw [lookup_shape] at h2
        obtain rfl := Option.some.inj h2
        rw [if_pos (by rw [h3]; rfl)] at hp0
        simp at hp0
      · have hs2 := processVariant_shape m m2 r0 hs hp0
        have hp2 := processVariant_triple m m2 r0 hs hp0 r2.definition t r2.name hp
        obtain ⟨e, he⟩ := ih m2 hs2 r2 htl hex2 t hof2 hp2
        exact ⟨e, by unfold initFrom; rw [hp0]; exact he⟩

theorem initFrom_cons (m : MachineMap) (r : VariantMetadata) (rest : List VariantMetadata) :
    initFrom m (r :: rest) =
      match processVariant m r with
      | Except.error e => Except.error e
      | Except.ok m2 => initFrom m2 rest := rfl

theorem initFrom_error_of_collision (l1 : List VariantMetadata) :
    ∀ (m : MachineMap) (r1 : VariantMetadata) (l2 : List VariantMetadata)
      (r2 : VariantMetadata) (l3 : List VariantMetadata),
      shapeInv m →
      r1.id ∉ exclude_variant_id_list → r2.id ∉ exclude_variant_id_list →
      sameTriple r1 r2 →
      (VariantType.ofString r1.hardware_type).isSome = true →
      ∃ e, initFrom m (l1 ++ r1 :: l2 ++ r2 :: l3) = Except.error e := by
  induction l1 with
  | nil =>
    intro m r1 l2 r2 l3 hs he1 he2 hsame hv
    obtain ⟨t, hof1⟩ := Option.isSome_iff_exists.mp hv
    simp only [List.nil_append, List.cons_append]
    cases hp : processVariant m r1 with
    | error e => exact ⟨e, by rw [initFrom_cons, hp]⟩
    | ok m2 =>
      have hs2 := processVariant_shape m m2 r1 hs hp
      have htr : triplePresent m2 r1.definition t r1.name :=
        processVariant_adds m m2 r1 t hs he1 hof1 hp
      have hof2 : VariantType.ofString r2.hardware_type = some t := by
        rw [← hsame.2.1]
        exact hof1
      have htr2 : triplePresent m2 r2.definition t r2.name := by
        rw [← hsame.1, ← hsame.2.2]
        exact htr
      obtain ⟨e, he⟩ :=
        initFrom_error_of_present (l2 ++ r2 :: l3) m2 hs2 r2 (by simp) he2 t hof2 htr2
      exact ⟨e, by rw [initFrom_cons, hp]; exact he⟩
  | cons r0 l1t ih =>
    intro m r1 l2 r2 l3 hs he1 he2 hsame hv
    simp only [List.cons_append]
    cases hp : processVariant m r0 with
    | error e => exact ⟨e, by rw [initFrom_cons, hp]⟩
    | ok m2 =>
      have hs2 := processVariant_shape m m2 r0 hs hp
      obtain ⟨e, he⟩ := ih m2 r1 l2 r2 l3 hs2 he1 he2 hsame hv
      exact ⟨e, by rw [initFrom_cons, hp]; exact he⟩

/-- Claim C2 counterexample: the claim as stated is false.  A registry holding
a single record (so no two records collide on a triple) whose hardware type is
"weird" makes initialization raise — the `ValueError` of the enum coercion —
refuting "for registry contents with no such collision, initialize() completes
without raising"; and a registry holding two records with the same
(definition, hardware_type, name) triple where that hardware type is "weird"
fails with the `ValueError`, not with a duplicate-variant error, refuting the
first half as stated. -/
theorem claim_C2_counterexample :
    initializeMap [VariantMetadata.mk "v1" "V" "m" "weird"] =
      Except.error (InitError.invalidVariantType "weird") ∧
    initializeMap [VariantMetadata.mk "v1" "V" "m" "weird",
        VariantMetadata.mk "v2" "V" "m" "weird"] =
      Except.error (InitError.invalidVariantType "weird") :=
  ⟨rfl, rfl⟩

/-- Claim C2 (amended): restricted to registries whose non-excluded records all
carry hardware types naming members of the `VariantType` enumeration, a
collision of two non-excluded records on the (definition, hardware_type, name)
triple makes initialization fail with a duplicate-variant error, and with no
such collision initialization completes without raising. -/
theorem claim_C2_amended (records : List VariantMetadata) :
    (validTypes records → hasCollision records →
      ∃ nm t df, initializeMap records =
        Except.error (InitError.duplicateVariant nm t df)) ∧
    (validTypes records → ¬ hasCollision records →
      ∃ mm, initializeMap records = Except.ok mm) := by
  constructor
  · intro hv hc
    obtain ⟨l1, r1, l2, r2, l3, heq, he1, he2, hsame⟩ := hc
    have hmem1 : r1 ∈ records := by
      rw [heq]
      simp
    have hv1 : (VariantType.ofString r1.hardware_type).isSome = true := hv r1 hmem1 he1
    have herr : ∃ e, initFrom [] records = Except.error e := by
      rw [heq]
      exact initFrom_error_of_collision l1 [] r1 l2 r2 l3 shapeInv_nil he1 he2 hsame hv1
    obtain ⟨e, he⟩ := herr
    obtain ⟨nm, t, df, rfl⟩ := initFrom_error_shape records [] e hv he
    exact ⟨nm, t, df, he⟩
  · intro hv hnc
    exact initFrom_ok records [] [] shapeInv_nil fromRecords_nil hv
      (by intro r1 h1 r2 h2 he1 he2; simp at h1) hnc

/-- Claim C2 witness: two same-triple nozzle records fail with a
duplicate-variant error; a collision-free single-record registry initializes
successfully. -/
theorem claim_C2_witness :
    (∃ nm t df,
      initializeMap [VariantMetadata.mk "a" "AA 0.4" "m1" "nozzle",
          VariantMetadata.mk "b" "AA 0.4" "m1" "nozzle"] =
        Except.error (InitError.duplicateVariant nm t df)) ∧
    (∃ mm, initializeMap [VariantMetadata.mk "a" "AA 0.4" "m1" "nozzle"] =
      Except.ok mm) := by
  constructor
  · apply (claim_C2_amended _).1
    · intro r hr hex
      rcases List.mem_cons.mp hr with rfl | hr2
      · rfl
      · rcases List.mem_cons.mp hr2 with rfl | hr3
        · rfl
        · simp at hr3
    · exact ⟨[], VariantMetadata.mk "a" "AA 0.4" "m1" "nozzle", [],
        VariantMetadata.mk "b" "AA 0.4" "m1" "nozzle", [], rfl,
        by decide, by decide, ⟨rfl, rfl, rfl⟩⟩
  · apply (claim_C2_amended _).2
    · intro r hr hex
      rcases List.mem_cons.mp hr with rfl | hr2
      · rfl
      · simp at hr2
    · rintro ⟨l1, r1, l2, r2, l3, heq, -, -, -⟩
      have hlen := congrArg List.length heq
      simp [List.length_append] at hlen
      omega
